import Mathlib

/-!
Verification development for the mlb-homerun-hub repository.

Shallow embedding of the client-side caching layer (`src/cache.js`) and of the
data-aggregation layer (`src/mlbApi.js`).  Machine state (the browser's
localStorage) is passed explicitly; `Date.now()` is injected as an explicit
`Int` argument; asynchronous producers are modelled by the outcome of their
single invocation (`Except JsErr Json`); JavaScript exceptions are modelled
with `Except` and the source's `try`/`catch` blocks are translated explicitly.
-/

namespace HRHub

/-- JSON-serializable JavaScript values (the payloads the cache stores).
Numbers are modelled as rationals, `null` is a first-class value: `getCached`
returns `Json.null` on a miss, exactly as the JS function returns `null`. -/
inductive Json where
  | null : Json
  | bool (b : Bool) : Json
  | num (q : ℚ) : Json
  | str (s : String) : Json
  | arr (elems : List Json) : Json
  | obj (fields : List (String × Json)) : Json

/-- The JavaScript test `x === null` on a modelled value. -/
def Json.isNull : Json → Bool
  | .null => true
  | _ => false

mutual

/-- `JSON.stringify` on the modelled value space (string escaping elided:
keys and string payloads are emitted verbatim). -/
def Json.stringify : Json → String
  | .null => "null"
  | .bool true => "true"
  | .bool false => "false"
  | .num q => toString q
  | .str s => "\"" ++ s ++ "\""
  | .arr elems => "[" ++ stringifyArr elems ++ "]"
  | .obj fields => "\x7b" ++ stringifyObj fields ++ "\x7d"

/-- Comma-separated serialization of a JSON array's elements. -/
def stringifyArr : List Json → String
  | [] => ""
  | [j] => j.stringify
  | j :: rest => j.stringify ++ "," ++ stringifyArr rest

/-- Comma-separated serialization of a JSON object's fields. -/
def stringifyObj : List (String × Json) → String
  | [] => ""
  | [(k, j)] => "\"" ++ k ++ "\":" ++ j.stringify
  | (k, j) :: rest => "\"" ++ k ++ "\":" ++ j.stringify ++ "," ++ stringifyObj rest

end

/-- Parsed form of one string stored in localStorage.  `entry` is the
serialization `JSON.stringify(\x7bdata, timestamp, ttl\x7d)` written by
`setCache`; `corrupt` models any stored string on which `JSON.parse` throws. -/
inductive CacheItem where
  | entry (data : Json) (timestamp : Int) (ttl : Int) : CacheItem
  | corrupt : CacheItem

/-- The localStorage key-value space: an association list with at most one
binding per key (all writes go through `lsSet`, which replaces). -/
abbrev LS := List (String × CacheItem)

/-- `localStorage.getItem` -/
def lsGet (st : LS) (k : String) : Option CacheItem :=
  (st.find? (fun kv => kv.1 == k)).map (·.2)

/-- `localStorage.removeItem` -/
def lsRemove (st : LS) (k : String) : LS :=
  st.filter (fun kv => kv.1 != k)

/-- A successful `localStorage.setItem`: replaces any previous binding. -/
def lsSet (st : LS) (k : String) (v : CacheItem) : LS :=
  lsRemove st k ++ [(k, v)]

/-- JavaScript exceptions relevant to the embedded code. -/
inductive JsErr where
  | parseError : JsErr
  | producerError (msg : String) : JsErr
  | quotaExceeded : JsErr
  | referenceError : JsErr
deriving DecidableEq

/-- `const CACHE_PREFIX = 'mlb_hr_hub_'` (cache.js line 4). -/
def cachePfx : String := "mlb_hr_hub_"

/-- `const DEFAULT_TTL = 60 * 60 * 1000` (cache.js line 5). -/
def DEFAULT_TTL : Int := 60 * 60 * 1000

/-- Body of `getCached`'s try block (cache.js lines 13-29).  A `corrupt`
stored string makes `JSON.parse` throw, producing `.error`; note no statement
before that throw mutates the store, so the catch sees the original store. -/
def getCachedTry (key : String) (now : Int) (st : LS) : Except JsErr (Json × LS) :=
  match lsGet st (cachePfx ++ key) with
  | none => .ok (.null, st)
  | some .corrupt => .error .parseError
  | some (.entry data timestamp ttl) =>
    if now - timestamp > ttl then .ok (.null, lsRemove st (cachePfx ++ key))
    else .ok (data, st)

/-- `getCached` (cache.js lines 12-34): the try body completed by its catch,
which logs and returns `null`, leaving the store untouched. -/
def getCached (key : String) (now : Int) (st : LS) : Json × LS :=
  match getCachedTry key now st with
  | .ok r => r
  | .error _ => (.null, st)

/-- The namespace test `key.startsWith(CACHE_PREFIX)`, computed on the
character lists so concrete instances reduce definitionally. -/
def startsWithPfx (k : String) : Bool :=
  cachePfx.data.isPrefixOf k.data

/-- `clearOldCache` (cache.js lines 90-111): removes, under the namespace
prefix, every expired entry and every entry whose stored string fails to
parse; keys outside the namespace are untouched. -/
def clearOldCache (now : Int) (st : LS) : LS :=
  st.filter (fun kv =>
    if startsWithPfx kv.1 then
      match kv.2 with
      | .corrupt => false
      | .entry _ timestamp ttl => decide (now - timestamp ≤ ttl)
    else true)

/-- `setCache` (cache.js lines 42-68) with JS exceptions explicit.
`quotaFail` models the first `localStorage.setItem` throwing
`QuotaExceededError`.  On that path the catch block runs `clearOldCache()`
and then attempts `localStorage.setItem(cacheKey, JSON.stringify(item))`
again — but `cacheKey` and `item` are `const`-declared inside the outer try
block and are not in scope in the catch block, so evaluating `cacheKey`
throws a `ReferenceError` before any store write; the inner bare `catch`
swallows it (logging "Cache still full after cleanup").  Hence on the quota
path the sweep happens but no retry write ever reaches the store.
The result is `.ok` in every case: no exception escapes `setCache`. -/
def setCacheEx (key : String) (data : Json) (ttl : Int) (now : Int)
    (st : LS) (quotaFail : Bool) : Except JsErr LS :=
  if quotaFail then
    .ok (clearOldCache now st)
  else
    .ok (lsSet st (cachePfx ++ key) (.entry data now ttl))

/-- `setCache` as the total function its callers observe. -/
def setCache (key : String) (data : Json) (ttl : Int) (now : Int)
    (st : LS) (quotaFail : Bool) : LS :=
  match setCacheEx key data ttl now st quotaFail with
  | .ok st' => st'
  | .error _ => st

/-- `cachedFetch` (cache.js lines 120-133).  `producer` is the settled
outcome of `fetchFn()`; the `Nat` component counts producer invocations.
`nowG` / `nowS` are `Date.now()` at cache-read / cache-write time. -/
def cachedFetch (key : String) (producer : Except JsErr Json) (ttl : Int)
    (nowG nowS : Int) (st : LS) (quotaFail : Bool) :
    Except JsErr Json × LS × Nat :=
  let c := getCached key nowG st
  if c.1.isNull = false then (.ok c.1, c.2, 0)
  else
    match producer with
    | .error e => (.error e, c.2, 1)
    | .ok data => (.ok data, setCache key data ttl nowS c.2 quotaFail, 1)

/-- `staleWhileRevalidate` (cache.js lines 144-163).  Returns the value read
from the cache at call time; the `List Json` component records the `onUpdate`
invocations performed by the background `.then` continuation.  A rejected
producer is logged and swallowed by the `.catch`, invoking nothing. -/
def staleWhileRevalidate (key : String) (producer : Except JsErr Json)
    (ttl : Int) (nowG nowS : Int) (st : LS) (quotaFail : Bool) :
    Json × LS × List Json :=
  let c := getCached key nowG st
  match producer with
  | .error _ => (c.1, c.2, [])
  | .ok fresh =>
    let st2 := setCache key fresh ttl nowS c.2 quotaFail
    if c.1.isNull || Json.stringify c.1 != Json.stringify fresh then
      (c.1, st2, [fresh])
    else
      (c.1, st2, [])

/-! ### mlbApi.js : season rule -/

/-- `getCurrentBaseballSeason` (mlbApi.js lines 477-484), with `new Date()`
injected as `(year, monthIdx)`; `monthIdx` is JS `getMonth()`: 0 = January,
3 = April.  Months 0-3 use the previous year. -/
def getCurrentBaseballSeason (year : Int) (monthIdx : Nat) : Int :=
  if monthIdx ≤ 3 then year - 1 else year

/-- `getLastNSeasons` (mlbApi.js lines 489-496): pushes
`currentSeason - i` for `i = 0 .. n-1`. -/
def getLastNSeasons (n : Nat) (year : Int) (monthIdx : Nat) : List Int :=
  (List.range n).map (fun i : Nat => getCurrentBaseballSeason year monthIdx - (i : Int))

/-! ### mlbApi.js : cross-season player aggregation -/

/-- One record of the list produced by `getSeasonLeaders` for one season
(mlbApi.js lines 519-539): the fields `getTopPlayersFromSeasons` reads.
`personId` is `leader.person.id`, absent when the API response carried no id. -/
structure SeasonLeader where
  player : String
  personId : Option Int
  statValue : ℚ
deriving DecidableEq

/-- One value of the `playerMap` built by `getTopPlayersFromSeasons`
(mlbApi.js lines 594-608). -/
structure Player where
  name : String
  id : Option Int
  totalStat : ℚ
  appearances : Nat
  seasons : List Int
deriving DecidableEq

/-- JavaScript truthiness of a possibly-missing numeric id (`undefined` and
`0` are falsy), as used by `existingPlayer.id || leader.personId` and by
`.filter(p => p.id)`. -/
def truthyId : Option Int → Bool
  | none => false
  | some n => n != 0

/-- The JavaScript `a || b` on possibly-missing ids. -/
def jsOr (a b : Option Int) : Option Int :=
  if truthyId a then a else b

/-- One iteration of the aggregation loop body (mlbApi.js lines 593-609):
merge a single season-leader record into the player map, modelled as an
insertion-ordered association list keyed by player name. -/
def mergeLeader (m : List Player) (season : Int) (l : SeasonLeader) : List Player :=
  if m.any (fun p => p.name == l.player) then
    m.map (fun p =>
      if p.name == l.player then
        { p with
          totalStat := p.totalStat + l.statValue
          appearances := p.appearances + 1
          seasons := p.seasons ++ [season]
          id := jsOr p.id l.personId }
      else p)
  else
    m ++ [⟨l.player, l.personId, l.statValue, 1, [season]⟩]

/-- The full double loop `allLeaders.forEach((leaders, idx) => ...
leaders.forEach(leader => ...))` (mlbApi.js lines 591-610), with each
season's leader list paired with its season year. -/
def mergePlayers (seasonLeaders : List (Int × List SeasonLeader)) : List Player :=
  seasonLeaders.foldl
    (fun m sl => sl.2.foldl (fun m' l => mergeLeader m' sl.1 l) m)
    []

/-- The final ranking step of `getTopPlayersFromSeasons` (mlbApi.js lines
613-616): keep players with truthy ids, sort by `totalStat` descending
(`.sort((a, b) => b.totalStat - a.totalStat)`, a stable sort), truncate. -/
def getTopPlayersCore (seasonLeaders : List (Int × List SeasonLeader))
    (limit : Nat) : List Player :=
  ((mergePlayers seasonLeaders).filter (fun p => truthyId p.id)).mergeSort
    (fun a b => decide (b.totalStat ≤ a.totalStat)) |>.take limit

/-! ### mlbApi.js : historical single-season records -/

/-- The keys of the `STAT_TYPES` registry (mlbApi.js lines 353-448).
`getHistoricalRecords` first looks its argument up there and returns `[]`
for unknown keys; modelling the key as an enumeration makes that guard
vacuous, so it is elided. -/
inductive StatType where
  | homeRuns | rbi | hits | stolenBases | battingAverage
  | earnedRunAverage | strikeouts | wins | saves | whip
deriving DecidableEq, BEq

/-- `const unreliableStats = [...]` (mlbApi.js line 739): every stat key
except `homeRuns`. -/
def unreliableStats : List StatType :=
  [.hits, .rbi, .stolenBases, .battingAverage, .earnedRunAverage,
   .strikeouts, .wins, .saves, .whip]

/-- The plausibility test on the leading value (mlbApi.js lines 761-763). -/
def implausibleLeading (statType : StatType) (firstValue : ℚ) : Bool :=
  (statType == .hits && decide (firstValue > 300)) ||
  (statType == .rbi && decide (firstValue > 200)) ||
  (statType == .stolenBases && decide (firstValue > 150))

/-- JavaScript `parseInt` on an already-parsed decimal: truncation toward
zero (remote values arrive as decimal strings). -/
def jsParseInt (q : ℚ) : ℚ :=
  if q < 0 then ((⌈q⌉ : ℤ) : ℚ) else ((⌊q⌋ : ℤ) : ℚ)

/-- One element of `data.leagueLeaders[0].leaders` as read by
`getHistoricalRecords` (mlbApi.js lines 769-776): optional fields model the
`?.` accesses; `value` is the numeric reading of the response's string. -/
structure RemoteLeader where
  personName : String
  personId : Option Int
  teamId : Option Int
  teamName : Option String
  season : Option Int
  value : ℚ
deriving DecidableEq

/-- `TEAM_ABBREVIATIONS` (mlbApi.js lines 452-459). -/
def teamAbbrev : Int → Option String
  | 108 => some "LAA" | 109 => some "ARI" | 110 => some "BAL" | 111 => some "BOS"
  | 112 => some "CHC" | 113 => some "CIN" | 114 => some "CLE" | 115 => some "COL"
  | 116 => some "DET" | 117 => some "HOU" | 118 => some "KC"  | 119 => some "LAD"
  | 120 => some "WSH" | 121 => some "NYM" | 133 => some "OAK" | 134 => some "PIT"
  | 135 => some "SD"  | 136 => some "SEA" | 137 => some "SF"  | 138 => some "STL"
  | 139 => some "TB"  | 140 => some "TEX" | 141 => some "TOR" | 142 => some "MIN"
  | 143 => some "PHI" | 144 => some "ATL" | 145 => some "CWS" | 146 => some "MIA"
  | 147 => some "NYY" | 158 => some "MIL"
  | _ => none

/-- `TEAM_ABBREVIATIONS[teamId] || leader.team?.name?.substring(0, 3).toUpperCase()`
(all abbreviations are nonempty, so `||` reduces to first-defined). -/
def resolveTeam (teamId : Option Int) (teamName : Option String) : Option String :=
  match teamId.bind teamAbbrev with
  | some abbr => some abbr
  | none => teamName.map (fun n => (n.take 3).toUpper)

/-- The rule-based status classifier of `getHistoricalRecords`
(mlbApi.js lines 779-794), first matching rule wins.  `year` being `null`
fails the JS truthiness guard `year && ...` on the era rules. -/
def recordStatus (statType : StatType) (index : Nat) (player : String)
    (statValue : ℚ) (year : Option Int) : String :=
  if index == 0 then "All-Time Record"
  else if statType == .homeRuns && player == "Aaron Judge" && statValue == 62 then
    "AL Record"
  else if statType == .homeRuns && player == "Roger Maris" then
    "AL Record (Former)"
  else if player == "Babe Ruth" then "Historical Legend"
  else if (match year with | some y => decide (1998 ≤ y) && decide (y ≤ 2001) | none => false) then
    (if index == 1 then "NL Record (Former)" else "Active Era")
  else if (match year with | some y => decide (2020 ≤ y) | none => false) then
    "Modern Era"
  else "Historic Record"

/-- One record of `getHistoricalRecords`' result (mlbApi.js lines 796-808 and
930-934): the union of the fields either path populates. -/
structure HistRecord where
  rank : Nat
  player : String
  personId : Option Int
  team : Option String
  teamId : Option Int
  statValue : ℚ
  statType : StatType
  hr : Option ℚ
  year : Option Int
  status : String
deriving DecidableEq

/-- The per-leader mapping of the remote path (mlbApi.js lines 769-809). -/
def mapRemoteLeader (statType : StatType) (idx : Nat) (leader : RemoteLeader) :
    HistRecord :=
  let year := leader.season
  let statValue :=
    if statType == .battingAverage then leader.value else jsParseInt leader.value
  { rank := idx + 1
    player := leader.personName
    personId := leader.personId
    team := resolveTeam leader.teamId leader.teamName
    teamId := leader.teamId
    statValue := statValue
    statType := statType
    hr := if statType == .homeRuns then some statValue else none
    year := year
    status := recordStatus statType idx leader.personName statValue year }

/-- One row of the literal `fallbackData` table (mlbApi.js lines 824-926):
every row supplies all of these fields. -/
structure FallbackRow where
  rank : Nat
  player : String
  personId : Int
  team : String
  teamId : Int
  statValue : ℚ
  year : Int
  status : String
deriving DecidableEq

/-- The literal `fallbackData` table of `getHistoricalRecordsFallback`
(mlbApi.js lines 824-926), transcribed row by row. -/
def fallbackData : StatType → List FallbackRow
  | .homeRuns =>
    [⟨1, "Barry Bonds", 111188, "SF", 137, 73, 2001, "All-Time Record"⟩,
     ⟨2, "Mark McGwire", 118219, "STL", 138, 70, 1998, "NL Record (Former)"⟩,
     ⟨3, "Sammy Sosa", 121471, "CHC", 112, 66, 1998, "Active Era"⟩,
     ⟨4, "Mark McGwire", 118219, "STL", 138, 65, 1999, "Active Era"⟩,
     ⟨5, "Sammy Sosa", 121471, "CHC", 112, 64, 2001, "Active Era"⟩,
     ⟨6, "Sammy Sosa", 121471, "CHC", 112, 63, 1999, "Active Era"⟩,
     ⟨7, "Aaron Judge", 592450, "NYY", 147, 62, 2022, "AL Record"⟩,
     ⟨8, "Roger Maris", 118140, "NYY", 147, 61, 1961, "AL Record (Former)"⟩,
     ⟨9, "Babe Ruth", 121093, "NYY", 147, 60, 1927, "Historical Legend"⟩]
  | .hits =>
    [⟨1, "Ichiro Suzuki", 400085, "SEA", 136, 262, 2004, "All-Time Record"⟩,
     ⟨2, "George Sisler", 121365, "STL", 138, 257, 1920, "Historic Record"⟩,
     ⟨3, "Lefty O'Doul", 118666, "PHI", 143, 254, 1929, "Historic Record"⟩,
     ⟨4, "Bill Terry", 122043, "NYG", 137, 254, 1930, "Historic Record"⟩,
     ⟨5, "Al Simmons", 121352, "PHI", 143, 253, 1925, "Historic Record"⟩,
     ⟨6, "Rogers Hornsby", 116511, "STL", 138, 250, 1922, "Historic Record"⟩,
     ⟨7, "Chuck Klein", 117137, "PHI", 143, 250, 1930, "Historic Record"⟩,
     ⟨8, "Ty Cobb", 112935, "DET", 116, 248, 1911, "Historical Legend"⟩]
  | .rbi =>
    [⟨1, "Hack Wilson", 123160, "CHC", 112, 191, 1930, "All-Time Record"⟩,
     ⟨2, "Lou Gehrig", 115167, "NYY", 147, 185, 1931, "Historical Legend"⟩,
     ⟨3, "Hank Greenberg", 115600, "DET", 116, 183, 1937, "Historic Record"⟩,
     ⟨4, "Lou Gehrig", 115167, "NYY", 147, 174, 1927, "Historical Legend"⟩,
     ⟨5, "Jimmie Foxx", 114945, "BOS", 111, 175, 1938, "Historic Record"⟩,
     ⟨6, "Lou Gehrig", 115167, "NYY", 147, 173, 1930, "Historical Legend"⟩,
     ⟨7, "Babe Ruth", 121093, "NYY", 147, 171, 1921, "Historical Legend"⟩,
     ⟨8, "Sammy Sosa", 121471, "CHC", 112, 160, 2001, "Modern Era"⟩]
  | .stolenBases =>
    [⟨1, "Hugh Nicol", 118617, "CIN", 113, 138, 1887, "All-Time Record"⟩,
     ⟨2, "Rickey Henderson", 116282, "OAK", 133, 130, 1982, "Modern Record"⟩,
     ⟨3, "Arlie Latham", 117607, "STL", 138, 129, 1887, "Historic Record"⟩,
     ⟨4, "Lou Brock", 111979, "STL", 138, 118, 1974, "Historic Record"⟩,
     ⟨5, "Charlie Comiskey", 113093, "STL", 138, 117, 1887, "Historic Record"⟩,
     ⟨6, "Rickey Henderson", 116282, "OAK", 133, 108, 1983, "Modern Record"⟩,
     ⟨7, "Vince Coleman", 113045, "STL", 138, 110, 1985, "Modern Era"⟩,
     ⟨8, "Vince Coleman", 113045, "STL", 138, 109, 1987, "Modern Era"⟩]
  | .battingAverage =>
    [⟨1, "Hugh Duffy", 114358, "BOS", 111, 0.440, 1894, "All-Time Record"⟩,
     ⟨2, "Tip O'Neill", 118664, "STL", 138, 0.435, 1887, "Historic Record"⟩,
     ⟨3, "Pete Browning", 112059, "LOU", 0, 0.457, 1887, "Historic Record"⟩,
     ⟨4, "Willie Keeler", 117023, "BAL", 110, 0.424, 1897, "Historic Record"⟩,
     ⟨5, "Rogers Hornsby", 116511, "STL", 138, 0.424, 1924, "Historic Record"⟩,
     ⟨6, "Nap Lajoie", 117552, "PHI", 143, 0.426, 1901, "Historic Record"⟩,
     ⟨7, "George Sisler", 121365, "STL", 138, 0.420, 1922, "Historic Record"⟩,
     ⟨8, "Ty Cobb", 112935, "DET", 116, 0.420, 1911, "Historical Legend"⟩]
  | .earnedRunAverage =>
    [⟨1, "Dutch Leonard", 117683, "BOS", 111, 0.96, 1914, "All-Time Record"⟩,
     ⟨2, "Mordecai Brown", 112063, "CHC", 112, 1.04, 1906, "Dead Ball Era"⟩,
     ⟨3, "Bob Gibson", 115178, "STL", 138, 1.12, 1968, "Expansion Era"⟩,
     ⟨4, "Christy Mathewson", 118161, "NYG", 137, 1.14, 1909, "Dead Ball Era"⟩,
     ⟨5, "Walter Johnson", 116911, "WSH", 120, 1.14, 1913, "Dead Ball Era"⟩,
     ⟨6, "Jack Pfiester", 119261, "CHC", 112, 1.15, 1907, "Dead Ball Era"⟩,
     ⟨7, "Addie Joss", 116922, "CLE", 114, 1.16, 1908, "Dead Ball Era"⟩,
     ⟨8, "Carl Lundgren", 117981, "CHC", 112, 1.17, 1907, "Dead Ball Era"⟩]
  | .strikeouts =>
    [⟨1, "Nolan Ryan", 121188, "CAL", 108, 383, 1973, "All-Time Record"⟩,
     ⟨2, "Sandy Koufax", 117251, "LAD", 119, 382, 1965, "Expansion Era"⟩,
     ⟨3, "Randy Johnson", 116539, "ARI", 109, 372, 2001, "Modern Era"⟩,
     ⟨4, "Nolan Ryan", 121188, "CAL", 108, 367, 1974, "Expansion Era"⟩,
     ⟨5, "Randy Johnson", 116539, "ARI", 109, 364, 1999, "Contemporary Era"⟩,
     ⟨6, "Nolan Ryan", 121188, "HOU", 117, 341, 1987, "Expansion Era"⟩,
     ⟨7, "Nolan Ryan", 121188, "TEX", 140, 332, 1989, "Contemporary Era"⟩,
     ⟨8, "Curt Schilling", 121213, "ARI", 109, 319, 2002, "Recent Record"⟩]
  | .wins =>
    [⟨1, "Jack Chesbro", 112725, "NYY", 147, 41, 1904, "All-Time Record"⟩,
     ⟨2, "Ed Walsh", 123092, "CWS", 145, 40, 1908, "Dead Ball Era"⟩,
     ⟨3, "Christy Mathewson", 118161, "NYG", 137, 37, 1908, "Dead Ball Era"⟩,
     ⟨4, "Walter Johnson", 116911, "WSH", 120, 36, 1913, "Dead Ball Era"⟩,
     ⟨5, "Joe McGinnity", 118223, "NYG", 137, 35, 1904, "Dead Ball Era"⟩,
     ⟨6, "Smoky Joe Wood", 123172, "BOS", 111, 34, 1912, "Dead Ball Era"⟩,
     ⟨7, "Cy Young", 124156, "BOS", 111, 33, 1901, "Dead Ball Era"⟩,
     ⟨8, "Denny McLain", 118207, "DET", 116, 31, 1968, "Expansion Era"⟩]
  | .saves =>
    [⟨1, "Francisco Rodríguez", 121359, "LAA", 108, 62, 2008, "All-Time Record"⟩,
     ⟨2, "Bobby Thigpen", 122045, "CWS", 145, 57, 1990, "Contemporary Era"⟩,
     ⟨3, "John Smoltz", 121371, "ATL", 144, 55, 2002, "Recent Record"⟩,
     ⟨4, "Eric Gagné", 115030, "LAD", 119, 55, 2003, "Recent Record"⟩,
     ⟨5, "Dennis Eckersley", 114404, "OAK", 133, 51, 1992, "Contemporary Era"⟩,
     ⟨6, "Trevor Hoffman", 116440, "SD", 135, 53, 1998, "Contemporary Era"⟩,
     ⟨7, "Randy Myers", 118640, "CHC", 112, 53, 1993, "Contemporary Era"⟩,
     ⟨8, "Mariano Rivera", 121250, "NYY", 147, 53, 2004, "Recent Record"⟩]
  | .whip =>
    [⟨1, "Pedro Martínez", 118173, "BOS", 111, 0.737, 2000, "All-Time Record"⟩,
     ⟨2, "Guy Hecker", 116184, "LOU", 0, 0.808, 1882, "Historic Record"⟩,
     ⟨3, "Walter Johnson", 116911, "WSH", 120, 0.780, 1913, "Dead Ball Era"⟩,
     ⟨4, "Pedro Martínez", 118173, "BOS", 111, 0.791, 1999, "Contemporary Era"⟩,
     ⟨5, "Mordecai Brown", 112063, "CHC", 112, 0.805, 1906, "Dead Ball Era"⟩,
     ⟨6, "Christy Mathewson", 118161, "NYG", 137, 0.827, 1909, "Dead Ball Era"⟩,
     ⟨7, "Bob Gibson", 115178, "STL", 138, 0.853, 1968, "Expansion Era"⟩,
     ⟨8, "Randy Johnson", 116539, "ARI", 109, 0.866, 1995, "Contemporary Era"⟩]

/-- `getHistoricalRecordsFallback` (mlbApi.js lines 821-935): the rows of the
literal table for the requested statistic, each extended with the statistic
descriptor and the legacy `hr` field.  The source's
`fallbackData[statType] || fallbackData.homeRuns` default is dead for an
enumerated statistic key. -/
def getHistoricalRecordsFallback (statType : StatType) : List HistRecord :=
  (fallbackData statType).map (fun r =>
    { rank := r.rank
      player := r.player
      personId := some r.personId
      team := some r.team
      teamId := some r.teamId
      statValue := r.statValue
      statType := statType
      hr := if statType == .homeRuns then some r.statValue else none
      year := some r.year
      status := r.status })

/-- The producer body of `getHistoricalRecords` (mlbApi.js lines 736-813),
with the remote interaction injected: `.error` models a fetch rejection or a
JSON-parse failure, `.ok none` a response missing
`leagueLeaders?.[0]?.leaders`, `.ok (some leaders)` a shaped response.  The
`Bool` result records whether the remote source was contacted (the
`unreliableStats` early return happens before the `fetch`). -/
def getHistoricalRecordsCore (statType : StatType)
    (remote : Except JsErr (Option (List RemoteLeader))) :
    List HistRecord × Bool :=
  if unreliableStats.contains statType then
    (getHistoricalRecordsFallback statType, false)
  else
    match remote with
    | .error _ => (getHistoricalRecordsFallback statType, true)
    | .ok none => (getHistoricalRecordsFallback statType, true)
    | .ok (some leaders) =>
      let firstValue : ℚ := match leaders.head? with | some l => l.value | none => 0
      if implausibleLeading statType firstValue then
        (getHistoricalRecordsFallback statType, true)
      else
        (leaders.enum.map (fun p => mapRemoteLeader statType p.1 p.2), true)

/-! ### Store lemmas -/

/-- Looking a key up right after `lsSet` on that key yields the new item. -/
theorem lsGet_lsSet_self (st : LS) (k : String) (v : CacheItem) :
    lsGet (lsSet st k v) k = some v := by
  have hnone : (lsRemove st k).find? (fun kv => kv.1 == k) = none := by
    rw [List.find?_eq_none]
    intro kv hkv
    have := (List.mem_filter.mp hkv).2
    simpa using this
  simp [lsSet, lsGet, List.find?_append, hnone]

/-- Looking a key up right after `lsRemove` on that key misses. -/
theorem lsGet_lsRemove_self (st : LS) (k : String) :
    lsGet (lsRemove st k) k = none := by
  have hnone : (lsRemove st k).find? (fun kv => kv.1 == k) = none := by
    rw [List.find?_eq_none]
    intro kv hkv
    have := (List.mem_filter.mp hkv).2
    simpa using this
  simp [lsGet, hnone]

/-- `j.isNull` decides `j = Json.null`. -/
theorem Json.isNull_iff (j : Json) : j.isNull = true ↔ j = .null := by
  cases j <;> simp [Json.isNull]

/-! ### Claim theorems: cache TTL -/

/-- C1: after a (quota-untroubled) `setCache(k, v, t)` at time `nowW`, an
immediate `getCached(k)` returns `v`; and at any read time `nowR` with more
than `t` milliseconds elapsed, `getCached(k)` returns null and the
namespaced entry is gone from the underlying store. -/
theorem cache_ttl (k : String) (v : Json) (t nowW nowR : Int) (st : LS)
    (ht : 0 ≤ t) :
    (getCached k nowW (setCache k v t nowW st false)).1 = v ∧
    (nowR - nowW > t →
      (getCached k nowR (setCache k v t nowW st false)).1 = .null ∧
      lsGet (getCached k nowR (setCache k v t nowW st false)).2
        (cachePfx ++ k) = none) := by
  have hset : setCache k v t nowW st false
      = lsSet st (cachePfx ++ k) (.entry v nowW t) := rfl
  have hget := lsGet_lsSet_self st (cachePfx ++ k) (.entry v nowW t)
  constructor
  · simp only [hset, getCached, getCachedTry, hget]
    rw [if_neg (by omega : ¬ nowW - nowW > t)]
  · intro hrd
    rw [hset]
    simp only [getCached, getCachedTry, hget]
    rw [if_pos hrd]
    exact ⟨rfl, lsGet_lsRemove_self _ _⟩

/-- Witness for C1 at a concrete key, value, TTL and clock. -/
theorem cache_ttl_witness :
    (getCached "scores" 0 (setCache "scores" (Json.num 7) 1000 0 [] false)).1
      = Json.num 7 ∧
    (getCached "scores" 2000
        (setCache "scores" (Json.num 7) 1000 0 [] false)).1 = .null := by
  have h := cache_ttl "scores" (Json.num 7) 1000 0 2000 [] (by norm_num)
  exact ⟨h.1, (h.2 (by norm_num)).1⟩

/-! ### Claim theorems: season rule -/

/-- C3: `getCurrentBaseballSeason` yields the previous calendar year exactly
when the JS month index is ≤ 3 (January through April) and the current year
otherwise; `getLastNSeasons n` has length `n` with i-th element
`current - i`; for a March 2026 date (month index 2, current period 2025),
`getLastNSeasons 4` is `[2025, 2024, 2023, 2022]`. -/
theorem season_rule (year : Int) (monthIdx n : Nat) :
    (monthIdx ≤ 3 → getCurrentBaseballSeason year monthIdx = year - 1) ∧
    (3 < monthIdx → getCurrentBaseballSeason year monthIdx = year) ∧
    (getLastNSeasons n year monthIdx).length = n ∧
    (∀ i, i < n → (getLastNSeasons n year monthIdx).getD i 0
      = getCurrentBaseballSeason year monthIdx - (i : Int)) ∧
    getLastNSeasons 4 2026 2 = [2025, 2024, 2023, 2022] := by
  refine ⟨?_, ?_, ?_, ?_, by decide⟩
  · intro h; simp [getCurrentBaseballSeason, h]
  · intro h; simp [getCurrentBaseballSeason, Nat.not_le.mpr h]
  · rw [getLastNSeasons, List.length_map, List.length_range]
  · intro i hi
    rw [getLastNSeasons, List.getD_eq_getElem?_getD, List.getElem?_map,
      List.getElem?_range]
    · simp
    · exact hi

/-- Witness for C3: March 15, 2026 (month index 2) gives current period 2025
and last-4 seasons `[2025, 2024, 2023, 2022]`; June 2026 gives 2026. -/
theorem season_rule_witness :
    getCurrentBaseballSeason 2026 2 = 2025 ∧
    getCurrentBaseballSeason 2026 5 = 2026 ∧
    getLastNSeasons 4 2026 2 = [2025, 2024, 2023, 2022] := by
  have h := season_rule 2026 2 4
  have h5 := season_rule 2026 5 4
  exact ⟨by simpa using h.1 (by norm_num), by simpa using h5.2.1 (by norm_num),
    h.2.2.2.2⟩

/-! ### Claim theorems: historical records fallback -/

/-- C9: when the requested statistic is one of hits / rbi / stolenBases and
the remote response's leading value exceeds that statistic's plausibility
ceiling (300 / 200 / 150), `getHistoricalRecords` produces the literal
fallback dataset for that statistic, not records parsed from the response.
(In the source these three statistics are in `unreliableStats`, so the
fallback is reached by the early return even before the ceiling check.) -/
theorem plausibility_fallback (statType : StatType)
    (leaders : List RemoteLeader) (l0 : RemoteLeader)
    (_hhead : leaders.head? = some l0)
    (hceil : (statType = .hits ∧ l0.value > 300) ∨
             (statType = .rbi ∧ l0.value > 200) ∨
             (statType = .stolenBases ∧ l0.value > 150)) :
    (getHistoricalRecordsCore statType (.ok (some leaders))).1
      = getHistoricalRecordsFallback statType := by
  rcases hceil with ⟨h, _⟩ | ⟨h, _⟩ | ⟨h, _⟩ <;> subst h <;> rfl

/-- Witness for C9: a hits response led by an implausible value 500. -/
theorem plausibility_fallback_witness :
    (getHistoricalRecordsCore .hits
        (.ok (some [⟨"Pete Rose", some 1, none, none, some 1980, 500⟩]))).1
      = getHistoricalRecordsFallback .hits := by
  exact plausibility_fallback .hits _ _ rfl (Or.inl ⟨rfl, by norm_num⟩)

/-- C10: for every statistic other than `homeRuns`, `getHistoricalRecords`
returns the literal fallback dataset unconditionally — whatever the remote
outcome would have been — and never contacts the remote source (the `Bool`
component is `false`: the `unreliableStats` early return precedes the
`fetch`).  In particular the result never depends on the plausibility
ceilings guarding hits, rbi and stolenBases. -/
theorem non_homerun_stats_always_fallback (statType : StatType)
    (remote : Except JsErr (Option (List RemoteLeader)))
    (h : statType ≠ .homeRuns) :
    getHistoricalRecordsCore statType remote
      = (getHistoricalRecordsFallback statType, false) := by
  cases statType <;> first | exact absurd rfl h | rfl

/-- Witness for C10: rbi with a perfectly plausible remote response still
yields the fallback, without contacting the remote source. -/
theorem non_homerun_stats_always_fallback_witness :
    getHistoricalRecordsCore .rbi
        (.ok (some [⟨"Hack Wilson", some 123160, some 112, none, some 1930, 191⟩]))
      = (getHistoricalRecordsFallback .rbi, false) := by
  exact non_homerun_stats_always_fallback .rbi _ (by simp)

/-! ### Claim theorems: cache-aside wrapper -/

/-- C5: whenever `getCached(k)` would return a non-null value, `cachedFetch`
returns exactly that cached value with the post-read store, and the producer
is never invoked (invocation count 0). -/
theorem cachedFetch_hit (k : String) (producer : Except JsErr Json)
    (ttl nowG nowS : Int) (st : LS) (q : Bool) (v : Json)
    (hv : (getCached k nowG st).1 = v) (hnn : v ≠ .null) :
    cachedFetch k producer ttl nowG nowS st q
      = (.ok v, (getCached k nowG st).2, 0) := by
  have hisn : v.isNull = false := by
    cases v <;> first | exact absurd rfl hnn | rfl
  simp [cachedFetch, hv, hisn]

/-- Witness for C5: a fresh cached team name is served; the (failing)
producer is not invoked. -/
theorem cachedFetch_hit_witness :
    cachedFetch "team" (.error (.producerError "network down")) 100 0 0
        [("mlb_hr_hub_team", CacheItem.entry (Json.str "NYY") 0 100)] false
      = (.ok (Json.str "NYY"),
         [("mlb_hr_hub_team", CacheItem.entry (Json.str "NYY") 0 100)], 0) := by
  exact cachedFetch_hit "team" _ 100 0 0 _ false (Json.str "NYY") rfl
    (fun h => Json.noConfusion h)

/-- A `getCached` miss persists: after a missed read, a later read of the
same key on the post-read store also misses (the only store change a read
makes is removing the very entry it found expired). -/
theorem getCached_miss_persists (k : String) (now now2 : Int) (st : LS)
    (h : (getCached k now st).1 = .null) :
    (getCached k now2 (getCached k now st).2).1 = .null := by
  cases hg : lsGet st (cachePfx ++ k) with
  | none => simp [getCached, getCachedTry, hg]
  | some item =>
    cases item with
    | corrupt => simp [getCached, getCachedTry, hg]
    | entry d ts ttl =>
      by_cases hexp : now - ts > ttl
      · simp [getCached, getCachedTry, hg, hexp, lsGet_lsRemove_self]
      · have hd : d = .null := by
          simpa [getCached, getCachedTry, hg, hexp] using h
        by_cases hexp2 : now2 - ts > ttl
        · simp [getCached, getCachedTry, hg, hexp, hexp2]
        · simp [getCached, getCachedTry, hg, hexp, hexp2, hd]

/-- C6: on a cache miss with a rejecting producer, `cachedFetch` propagates
the producer's error unchanged (there is no catch), the resulting store is
exactly the post-read store (nothing is written), and a subsequent
`cachedFetch` on that store — at any time, with any producer — misses again
and invokes the producer (invocation count 1 on both calls). -/
theorem cachedFetch_producer_error (k : String) (e : JsErr)
    (ttl ttl2 nowG nowS nowG2 nowS2 : Int) (st : LS) (q q2 : Bool)
    (producer2 : Except JsErr Json)
    (hm : (getCached k nowG st).1 = .null) :
    cachedFetch k (.error e) ttl nowG nowS st q
      = (.error e, (getCached k nowG st).2, 1) ∧
    (cachedFetch k producer2 ttl2 nowG2 nowS2 (getCached k nowG st).2 q2).2.2
      = 1 := by
  have hisn : (getCached k nowG st).1.isNull = true := by rw [hm]; rfl
  constructor
  · simp [cachedFetch, hisn]
  · have h2 := getCached_miss_persists k nowG nowG2 st hm
    have hisn2 : (getCached k nowG2 (getCached k nowG st).2).1.isNull = true := by
      rw [h2]; rfl
    cases producer2 <;> simp [cachedFetch, hisn2]

/-- Witness for C6 on an empty store: the rejection propagates, nothing is
cached, and the retry invokes the producer again. -/
theorem cachedFetch_producer_error_witness :
    cachedFetch "lead" (.error (.producerError "http 500")) 100 0 0 [] false
      = (.error (.producerError "http 500"), [], 1) ∧
    (cachedFetch "lead" (.ok (Json.num 3)) 100 9 9 [] false).2.2 = 1 := by
  have h := cachedFetch_producer_error "lead" (.producerError "http 500")
    100 100 0 0 9 9 [] false false (.ok (Json.num 3)) rfl
  exact h

/-! ### Claim theorems: setCache quota path and corrupt reads -/

/-- C7: evaluation of `setCache` at the failing input.  First write throws
quota-exceeded on a store holding one expired namespaced entry.  The
best-effort sweep (`clearOldCache`) does run and empties the store — so the
promised retry would have space — yet the final store holds no entry under
the written key: the source's retry reads `cacheKey`/`item`, which are
`const`-bound inside the try block and not in scope in the catch block, so
it throws a `ReferenceError` that the inner bare catch swallows and the
retry write never reaches the store (the code's own `// Try again` comment
documents the contrary intent).  The claim's no-exception part does hold:
`setCacheEx` returns `.ok`. -/
theorem setCache_quota_drops_write :
    setCache "fresh" (Json.num 1) 1000 2000
        [("mlb_hr_hub_old", CacheItem.entry (Json.num 0) 0 10)] true = [] ∧
    lsGet (setCache "fresh" (Json.num 1) 1000 2000
        [("mlb_hr_hub_old", CacheItem.entry (Json.num 0) 0 10)] true)
      "mlb_hr_hub_fresh" = none ∧
    setCacheEx "fresh" (Json.num 1) 1000 2000
        [("mlb_hr_hub_old", CacheItem.entry (Json.num 0) 0 10)] true
      = .ok [] :=
  ⟨rfl, rfl, rfl⟩

/-- C8 counterexample: with a corrupt stored string under the namespaced
key, `getCached` returns null but leaves the store unchanged — the corrupt
entry is still present, refuting the claim's "removes the corrupt entry". -/
theorem getCached_corrupt_not_removed :
    getCached "k" 0 [("mlb_hr_hub_k", CacheItem.corrupt)]
      = (.null, [("mlb_hr_hub_k", CacheItem.corrupt)]) ∧
    (lsGet (getCached "k" 0 [("mlb_hr_hub_k", CacheItem.corrupt)]).2
        "mlb_hr_hub_k").isSome = true :=
  ⟨rfl, rfl⟩

/-- C8 (amended): `getCached` never lets an exception escape — the
`JSON.parse` throw on a corrupt entry is the only raw exception in its body
(`getCachedTry`'s `.error`) and the catch completes it to a null return —
and it treats the deserialization failure as a miss, returning null, while
leaving the corrupt entry in the underlying store (removal happens only
later, in `clearOldCache`). -/
theorem getCached_corrupt_is_miss (k : String) (now : Int) (st : LS)
    (h : lsGet st (cachePfx ++ k) = some .corrupt) :
    getCached k now st = (.null, st) ∧
    lsGet (getCached k now st).2 (cachePfx ++ k) = some .corrupt := by
  refine ⟨by simp [getCached, getCachedTry, h], ?_⟩
  simp [getCached, getCachedTry, h]

/-- Witness for the amended C8 at a concrete corrupt store. -/
theorem getCached_corrupt_is_miss_witness :
    getCached "cfg" 7 [("mlb_hr_hub_cfg", CacheItem.corrupt)]
      = (.null, [("mlb_hr_hub_cfg", CacheItem.corrupt)]) ∧
    lsGet (getCached "cfg" 7 [("mlb_hr_hub_cfg", CacheItem.corrupt)]).2
        ("mlb_hr_hub_" ++ "cfg") = some .corrupt := by
  exact getCached_corrupt_is_miss "cfg" 7 [("mlb_hr_hub_cfg", CacheItem.corrupt)] rfl

/-! ### Claim theorems: stale-while-revalidate -/

/-- C4: `staleWhileRevalidate` returns the value read from the cache at call
time whatever the producer's outcome; when the producer resolves, the fresh
value is stored under the namespaced key with the given ttl (shown for a
quota-untroubled write), and `onUpdate` is invoked exactly once with the
fresh value when the cached value was null or the two serialized forms
differ, and not at all when they coincide on a non-null cached value; when
the producer rejects, `onUpdate` is not invoked. -/
theorem swr_contract (k : String) (producer : Except JsErr Json)
    (ttl nowG nowS : Int) (st : LS) (q : Bool) :
    (staleWhileRevalidate k producer ttl nowG nowS st q).1
      = (getCached k nowG st).1 ∧
    (∀ e, producer = .error e →
      (staleWhileRevalidate k producer ttl nowG nowS st q).2.2 = []) ∧
    (∀ fresh, producer = .ok fresh →
      (q = false →
        lsGet (staleWhileRevalidate k producer ttl nowG nowS st q).2.1
          (cachePfx ++ k) = some (.entry fresh nowS ttl)) ∧
      ((getCached k nowG st).1 = .null ∨
          Json.stringify (getCached k nowG st).1 ≠ Json.stringify fresh →
        (staleWhileRevalidate k producer ttl nowG nowS st q).2.2 = [fresh]) ∧
      ((getCached k nowG st).1 ≠ .null ∧
          Json.stringify (getCached k nowG st).1 = Json.stringify fresh →
        (staleWhileRevalidate k producer ttl nowG nowS st q).2.2 = [])) := by
  refine ⟨?_, ?_, ?_⟩
  · cases producer with
    | error e => rfl
    | ok fresh =>
      simp only [staleWhileRevalidate]
      split <;> rfl
  · intro e he; subst he; rfl
  · intro fresh hf; subst hf
    refine ⟨?_, ?_, ?_⟩
    · intro hq; subst hq
      simp only [staleWhileRevalidate]
      split <;> exact lsGet_lsSet_self _ _ _
    · intro hcond
      have hb : ((getCached k nowG st).1.isNull
          || Json.stringify (getCached k nowG st).1 != Json.stringify fresh)
          = true := by
        rcases hcond with hnull | hne
        · rw [hnull]; rfl
        · simp [bne_iff_ne, hne]
      simp only [staleWhileRevalidate]
      rw [if_pos hb]
    · intro hcond
      have hb : ((getCached k nowG st).1.isNull
          || Json.stringify (getCached k nowG st).1 != Json.stringify fresh)
          = false := by
        have h1 : (getCached k nowG st).1.isNull = false := by
          rcases hn : (getCached k nowG st).1 with _ | _ | _ | _ | _ | _
          · exact absurd hn hcond.1
          all_goals rfl
        simp [h1, bne_iff_ne, hcond.2]
      simp only [staleWhileRevalidate]
      rw [if_neg (by simp [hb])]

/-- Witness for C4, with cached payload `{a:1}`: a structurally equal fresh
result `{a:1}` triggers no onUpdate; a fresh `{a:2}` triggers exactly one
onUpdate with `{a:2}` and is written with the new timestamp and ttl. -/
theorem swr_contract_witness :
    (staleWhileRevalidate "cfg" (.ok (Json.obj [("a", Json.num 1)])) 1000 5 6
        [("mlb_hr_hub_cfg", CacheItem.entry (Json.obj [("a", Json.num 1)]) 0 1000)]
        false).2.2 = [] ∧
    (staleWhileRevalidate "cfg" (.ok (Json.obj [("a", Json.num 2)])) 1000 5 6
        [("mlb_hr_hub_cfg", CacheItem.entry (Json.obj [("a", Json.num 1)]) 0 1000)]
        false).2.2 = [Json.obj [("a", Json.num 2)]] ∧
    lsGet (staleWhileRevalidate "cfg" (.ok (Json.obj [("a", Json.num 2)])) 1000 5 6
        [("mlb_hr_hub_cfg", CacheItem.entry (Json.obj [("a", Json.num 1)]) 0 1000)]
        false).2.1 ("mlb_hr_hub_" ++ "cfg")
      = some (.entry (Json.obj [("a", Json.num 2)]) 6 1000) := by
  have h1 := swr_contract "cfg" (.ok (Json.obj [("a", Json.num 1)])) 1000 5 6
    [("mlb_hr_hub_cfg", CacheItem.entry (Json.obj [("a", Json.num 1)]) 0 1000)] false
  have h2 := swr_contract "cfg" (.ok (Json.obj [("a", Json.num 2)])) 1000 5 6
    [("mlb_hr_hub_cfg", CacheItem.entry (Json.obj [("a", Json.num 1)]) 0 1000)] false
  refine ⟨?_, ?_, ?_⟩
  · refine (h1.2.2 _ rfl).2.2 ⟨?_, rfl⟩
    intro hc
    have hobj : Json.obj [("a", Json.num 1)] = Json.null := hc
    exact Json.noConfusion hobj
  · refine (h2.2.2 _ rfl).2.1 (Or.inr ?_)
    show Json.stringify (Json.obj [("a", Json.num 1)])
      ≠ Json.stringify (Json.obj [("a", Json.num 2)])
    simp only [Json.stringify, stringifyObj]
    decide
  · exact (h2.2.2 _ rfl).1 rfl

/-! ### Claim theorems: cross-season aggregation -/

/-- All (season, leader) pairs in the iteration order of the double loop of
`getTopPlayersFromSeasons`. -/
def flatRecords (sl : List (Int × List SeasonLeader)) :
    List (Int × SeasonLeader) :=
  sl.flatMap (fun p => p.2.map (fun l => (p.1, l)))

/-- The records carrying one player name, in iteration order. -/
def recordsOf (name : String) (rs : List (Int × SeasonLeader)) :
    List (Int × SeasonLeader) :=
  rs.filter (fun r => r.2.player == name)

/-- The canonical aggregate of one player name over a record sequence:
stat values summed, appearances counted, seasons appended in order, and the
id accumulated by the JS `||` (so the first truthy id is retained). -/
def aggOf (name : String) (rs : List (Int × SeasonLeader)) : Player :=
  { name := name
    id := (recordsOf name rs).foldl (fun a r => jsOr a r.2.personId) none
    totalStat := ((recordsOf name rs).map (fun r => r.2.statValue)).sum
    appearances := (recordsOf name rs).length
    seasons := (recordsOf name rs).map (fun r => r.1) }

/-- The double fold of `mergePlayers` equals the single fold over the
flattened record sequence. -/
theorem foldl_mergeLeader_flat (sl : List (Int × List SeasonLeader))
    (init : List Player) :
    sl.foldl (fun m p => p.2.foldl (fun m' l => mergeLeader m' p.1 l) m) init
      = (flatRecords sl).foldl (fun m r => mergeLeader m r.1 r.2) init := by
  induction sl generalizing init with
  | nil => rfl
  | cons p rest ih =>
    simp only [List.foldl_cons, flatRecords, List.flatMap_cons,
      List.foldl_append, List.foldl_map]
    exact ih _

/-- `mergePlayers` as a single fold. -/
theorem mergePlayers_eq (sl : List (Int × List SeasonLeader)) :
    mergePlayers sl
      = (flatRecords sl).foldl (fun m r => mergeLeader m r.1 r.2) [] :=
  foldl_mergeLeader_flat sl []

/-- Appending one record to the sequence extends one name's records by at
most that record. -/
theorem recordsOf_append (name : String) (rs : List (Int × SeasonLeader))
    (r : Int × SeasonLeader) :
    recordsOf name (rs ++ [r])
      = recordsOf name rs ++ (if r.2.player == name then [r] else []) := by
  rcases hb : r.2.player == name with _ | _ <;>
    simp [recordsOf, List.filter_append, hb]

/-- Invariant of the merge loop: the accumulated map holds, for exactly the
names seen so far, the canonical aggregate of that name, one entry per
name. -/
def MergeInv (rs : List (Int × SeasonLeader)) (m : List Player) : Prop :=
  (∀ p ∈ m, recordsOf p.name rs ≠ [] ∧ p = aggOf p.name rs) ∧
  (∀ r ∈ rs, ∃ p ∈ m, p.name = r.2.player) ∧
  (m.map (fun p => p.name)).Nodup

/-- Aggregates only depend on the name's record subsequence. -/
theorem aggOf_congr (name : String) (rs rs' : List (Int × SeasonLeader))
    (h : recordsOf name rs = recordsOf name rs') :
    aggOf name rs = aggOf name rs' := by
  simp [aggOf, h]

/-- Appending a record of the name performs exactly the `mergeLeader`
field updates on the canonical aggregate. -/
theorem aggOf_append_match (name : String) (rs : List (Int × SeasonLeader))
    (r : Int × SeasonLeader) (hr : (r.2.player == name) = true) :
    aggOf name (rs ++ [r])
      = { aggOf name rs with
          totalStat := (aggOf name rs).totalStat + r.2.statValue
          appearances := (aggOf name rs).appearances + 1
          seasons := (aggOf name rs).seasons ++ [r.1]
          id := jsOr (aggOf name rs).id r.2.personId } := by
  have hrec : recordsOf name (rs ++ [r]) = recordsOf name rs ++ [r] := by
    rw [recordsOf_append, if_pos hr]
  simp [aggOf, hrec, List.foldl_append, List.map_append, List.sum_append,
    List.length_append]

/-- One `mergeLeader` step preserves the merge invariant. -/
theorem mergeInv_step (rs : List (Int × SeasonLeader)) (m : List Player)
    (r : Int × SeasonLeader) (h : MergeInv rs m) :
    MergeInv (rs ++ [r]) (mergeLeader m r.1 r.2) := by
  obtain ⟨h1, h2, h3⟩ := h
  by_cases hin : m.any (fun p => p.name == r.2.player) = true
  · -- the player is already in the map: update in place
    have hml : mergeLeader m r.1 r.2 = m.map (fun p =>
        if p.name == r.2.player then
          { p with
            totalStat := p.totalStat + r.2.statValue
            appearances := p.appearances + 1
            seasons := p.seasons ++ [r.1]
            id := jsOr p.id r.2.personId }
        else p) := by
      simp only [mergeLeader]
      rw [if_pos hin]
    have hnames : ∀ p : Player,
        (if p.name == r.2.player then
          { p with
            totalStat := p.totalStat + r.2.statValue
            appearances := p.appearances + 1
            seasons := p.seasons ++ [r.1]
            id := jsOr p.id r.2.personId }
        else p).name = p.name := by
      intro p; split <;> rfl
    refine ⟨?_, ?_, ?_⟩
    · intro p' hp'
      rw [hml] at hp'
      obtain ⟨p, hpm, hpe⟩ := List.mem_map.mp hp'
      obtain ⟨hne, hagg⟩ := h1 p hpm
      subst hpe
      by_cases hpn : (p.name == r.2.player) = true
      · have hpr : (r.2.player == p.name) = true := by
          rw [eq_of_beq hpn]; simp
        have hrec : recordsOf p.name (rs ++ [r])
            = recordsOf p.name rs ++ [r] := by
          rw [recordsOf_append, if_pos hpr]
        rw [if_pos hpn]
        constructor
        · show recordsOf p.name (rs ++ [r]) ≠ []
          rw [hrec]; simp
        · show _ = aggOf p.name (rs ++ [r])
          rw [aggOf_append_match p.name rs r hpr, ← hagg]
      · have hpr : (r.2.player == p.name) = false := by
          rcases hx : r.2.player == p.name with _ | _
          · rfl
          · exact absurd (by rw [eq_of_beq hx]; simp) hpn
        have hrec : recordsOf p.name (rs ++ [r]) = recordsOf p.name rs := by
          rw [recordsOf_append, if_neg (by simp [hpr])]
          simp
        rw [if_neg hpn]
        exact ⟨by rw [hrec]; exact hne,
          by rw [aggOf_congr p.name (rs ++ [r]) rs hrec]; exact hagg⟩
    · intro r' hr'
      rw [hml]
      rcases List.mem_append.mp hr' with hr1 | hr2
      · obtain ⟨p, hpm, hpn⟩ := h2 r' hr1
        exact ⟨_, List.mem_map_of_mem _ hpm, by rw [hnames p]; exact hpn⟩
      · have hre : r' = r := by simpa using hr2
        subst hre
        obtain ⟨p, hpm, hpn⟩ := List.any_eq_true.mp hin
        exact ⟨_, List.mem_map_of_mem _ hpm,
          by rw [hnames p]; exact eq_of_beq hpn⟩
    · rw [hml]
      have hmaps : (m.map (fun p : Player =>
          if p.name == r.2.player then
            { p with
              totalStat := p.totalStat + r.2.statValue
              appearances := p.appearances + 1
              seasons := p.seasons ++ [r.1]
              id := jsOr p.id r.2.personId }
          else p)).map (fun p => p.name) = m.map (fun p => p.name) := by
        rw [List.map_map]
        exact List.map_congr_left (fun p _ => hnames p)
      rw [hmaps]
      exact h3
  · -- new player: append a fresh aggregate
    have hml : mergeLeader m r.1 r.2
        = m ++ [⟨r.2.player, r.2.personId, r.2.statValue, 1, [r.1]⟩] := by
      simp only [mergeLeader]
      rw [if_neg hin]
    have hnone : ∀ p ∈ m, p.name ≠ r.2.player := by
      intro p hpm hcontra
      exact hin (List.any_eq_true.mpr ⟨p, hpm, by rw [hcontra]; simp⟩)
    have hnorec : recordsOf r.2.player rs = [] := by
      rcases hcase : recordsOf r.2.player rs with _ | ⟨x, rest⟩
      · rfl
      · have hx : x ∈ recordsOf r.2.player rs := by rw [hcase]; simp
        have hx' := List.mem_filter.mp hx
        obtain ⟨p, hpm, hpn⟩ := h2 x hx'.1
        exact absurd (by rw [hpn]; exact eq_of_beq hx'.2) (hnone p hpm)
    refine ⟨?_, ?_, ?_⟩
    · intro p' hp'
      rw [hml] at hp'
      rcases List.mem_append.mp hp' with hpm | hpnew
      · obtain ⟨hne, hagg⟩ := h1 p' hpm
        have hpr : (r.2.player == p'.name) = false := by
          rcases hx : r.2.player == p'.name with _ | _
          · rfl
          · exact absurd (eq_of_beq hx).symm (hnone p' hpm)
        have hrec : recordsOf p'.name (rs ++ [r]) = recordsOf p'.name rs := by
          rw [recordsOf_append, if_neg (by simp [hpr])]
          simp
        exact ⟨by rw [hrec]; exact hne,
          by rw [aggOf_congr p'.name (rs ++ [r]) rs hrec]; exact hagg⟩
      · have hpe : p' = ⟨r.2.player, r.2.personId, r.2.statValue, 1, [r.1]⟩ := by
          simpa using hpnew
        subst hpe
        have hrec : recordsOf r.2.player (rs ++ [r]) = [r] := by
          rw [recordsOf_append, if_pos (by simp), hnorec]
          rfl
        constructor
        · show recordsOf r.2.player (rs ++ [r]) ≠ []
          rw [hrec]; simp
        · show _ = aggOf r.2.player (rs ++ [r])
          simp [aggOf, hrec, jsOr, truthyId]
    · intro r' hr'
      rw [hml]
      rcases List.mem_append.mp hr' with hr1 | hr2
      · obtain ⟨p, hpm, hpn⟩ := h2 r' hr1
        exact ⟨p, List.mem_append_left _ hpm, hpn⟩
      · have hre : r' = r := by simpa using hr2
        exact ⟨⟨r.2.player, r.2.personId, r.2.statValue, 1, [r.1]⟩,
          List.mem_append_right _ (by simp), by rw [hre]⟩
    · rw [hml, List.map_append]
      refine List.Nodup.append h3 (by simp) ?_
      intro x hx hx'
      have hxe : x = r.2.player := by simpa using hx'
      obtain ⟨p, hpm, hpe⟩ := List.mem_map.mp hx
      exact hnone p hpm (by rw [hpe, hxe])

/-- The merge invariant carries through the whole fold. -/
theorem mergeInv_foldl (rs : List (Int × SeasonLeader)) :
    ∀ (done : List (Int × SeasonLeader)) (m : List Player), MergeInv done m →
      MergeInv (done ++ rs)
        (rs.foldl (fun m' r => mergeLeader m' r.1 r.2) m) := by
  induction rs with
  | nil => intro done m h; simpa using h
  | cons r rest ih =>
    intro done m h
    rw [List.foldl_cons]
    have h' := mergeInv_step done m r h
    have := ih (done ++ [r]) (mergeLeader m r.1 r.2) h'
    simpa [List.append_assoc] using this

/-- `mergePlayers` satisfies the merge invariant over the flattened record
sequence. -/
theorem mergePlayers_inv (sl : List (Int × List SeasonLeader)) :
    MergeInv (flatRecords sl) (mergePlayers sl) := by
  rw [mergePlayers_eq]
  have base : MergeInv [] [] := ⟨by simp, by simp, by simp⟩
  have := mergeInv_foldl (flatRecords sl) [] [] base
  simpa using this

/-- Folding the JS `||` from a truthy value changes nothing. -/
theorem foldl_jsOr_truthy (ids : List (Option Int)) (a : Option Int)
    (ha : truthyId a = true) : ids.foldl jsOr a = a := by
  induction ids with
  | nil => rfl
  | cons i rest ih =>
    rw [List.foldl_cons, show jsOr a i = a by simp [jsOr, ha]]
    exact ih

/-- When the JS `||`-fold of the ids is truthy, it equals the first truthy
id of the sequence. -/
theorem foldl_jsOr_find_general (ids : List (Option Int)) :
    ∀ a : Option Int, truthyId a = false →
      truthyId (ids.foldl jsOr a) = true →
      ids.find? truthyId = some (ids.foldl jsOr a) := by
  induction ids with
  | nil =>
    intro a hna h
    rw [List.foldl_nil] at h
    rw [h] at hna
    cases hna
  | cons i rest ih =>
    intro a hna h
    rw [List.foldl_cons, show jsOr a i = i by simp [jsOr, hna]] at h ⊢
    by_cases hi : truthyId i = true
    · rw [foldl_jsOr_truthy rest i hi] at h ⊢
      simp [List.find?_cons, hi]
    · have hbi : truthyId i = false := by
        rcases hx : truthyId i with _ | _
        · rfl
        · exact absurd hx hi
      rw [List.find?_cons, hbi]
      exact ih i hbi h

/-- C2: writing `rs` for the flattened (season, leader) sequence of the
fetched seasons — (i) every entry of the merged player map is the canonical
per-name aggregate: stat values summed into `totalStat`, appearances
counted, the seasons appended in order, and the id the JS `||`-fold of the
per-season ids (so an existing id is never overwritten by a later missing
one); (ii) every fetched record's player name has an entry; (iii) one entry
per name; (iv) every returned player has a truthy id — equal to the first
truthy id among its records — and comes from the merged map; (v) returned
names are pairwise distinct; (vi) the returned list is sorted by `totalStat`
descending; (vii) its length is at most `limit`. -/
theorem topPlayers_spec (sl : List (Int × List SeasonLeader)) (limit : Nat) :
    (∀ p ∈ mergePlayers sl,
      recordsOf p.name (flatRecords sl) ≠ [] ∧
      p = aggOf p.name (flatRecords sl)) ∧
    (∀ r ∈ flatRecords sl, ∃ p ∈ mergePlayers sl, p.name = r.2.player) ∧
    ((mergePlayers sl).map (fun p => p.name)).Nodup ∧
    (∀ p ∈ getTopPlayersCore sl limit,
      truthyId p.id = true ∧ p ∈ mergePlayers sl ∧
      ((recordsOf p.name (flatRecords sl)).map
        (fun r => r.2.personId)).find? truthyId = some p.id) ∧
    ((getTopPlayersCore sl limit).map (fun p => p.name)).Nodup ∧
    (getTopPlayersCore sl limit).Sorted
      (fun a b => b.totalStat ≤ a.totalStat) ∧
    (getTopPlayersCore sl limit).length ≤ limit := by
  obtain ⟨h1, h2, h3⟩ := mergePlayers_inv sl
  have hsubl : (getTopPlayersCore sl limit).Sublist
      (((mergePlayers sl).filter (fun p => truthyId p.id)).mergeSort
        (fun a b => decide (b.totalStat ≤ a.totalStat))) :=
    List.take_sublist _ _
  have hperm : (((mergePlayers sl).filter (fun p => truthyId p.id)).mergeSort
      (fun a b => decide (b.totalStat ≤ a.totalStat))).Perm
      ((mergePlayers sl).filter (fun p => truthyId p.id)) :=
    List.mergeSort_perm _ _
  have hmemres : ∀ p ∈ getTopPlayersCore sl limit,
      p ∈ (mergePlayers sl).filter (fun p => truthyId p.id) := by
    intro p hp
    exact hperm.subset (hsubl.subset hp)
  refine ⟨h1, h2, h3, ?_, ?_, ?_, ?_⟩
  · intro p hp
    have hpf := List.mem_filter.mp (hmemres p hp)
    refine ⟨hpf.2, hpf.1, ?_⟩
    obtain ⟨-, hagg⟩ := h1 p hpf.1
    have hid : p.id = ((recordsOf p.name (flatRecords sl)).map
        (fun r => r.2.personId)).foldl jsOr none := by
      rw [List.foldl_map]
      exact congrArg Player.id hagg
    rw [hid]
    exact foldl_jsOr_find_general _ none rfl (by rw [← hid]; exact hpf.2)
  · have hn1 : (((mergePlayers sl).filter
        (fun p => truthyId p.id)).map (fun p => p.name)).Nodup :=
      h3.sublist (List.Sublist.map _ (List.filter_sublist _))
    have hn2 : ((((mergePlayers sl).filter (fun p => truthyId p.id)).mergeSort
        (fun a b => decide (b.totalStat ≤ a.totalStat))).map
          (fun p => p.name)).Nodup :=
      ((hperm.map (fun p => p.name)).nodup_iff).mpr hn1
    exact hn2.sublist (List.Sublist.map _ hsubl)
  · have htrans : ∀ a b c : Player,
        (fun a b : Player => decide (b.totalStat ≤ a.totalStat)) a b = true →
        (fun a b : Player => decide (b.totalStat ≤ a.totalStat)) b c = true →
        (fun a b : Player => decide (b.totalStat ≤ a.totalStat)) a c = true := by
      intro a b c hab hbc
      simp only [decide_eq_true_iff] at hab hbc ⊢
      exact le_trans hbc hab
    have htotal : ∀ a b : Player,
        ((fun a b : Player => decide (b.totalStat ≤ a.totalStat)) a b ||
         (fun a b : Player => decide (b.totalStat ≤ a.totalStat)) b a) = true := by
      intro a b
      simp only [Bool.or_eq_true, decide_eq_true_iff]
      exact le_total b.totalStat a.totalStat
    have hs := List.sorted_mergeSort htrans htotal
      ((mergePlayers sl).filter (fun p => truthyId p.id))
    have hs' : (((mergePlayers sl).filter (fun p => truthyId p.id)).mergeSort
        (fun a b => decide (b.totalStat ≤ a.totalStat))).Sorted
        (fun a b => b.totalStat ≤ a.totalStat) :=
      hs.imp (fun h => decide_eq_true_iff.mp h)
    exact hs'.sublist hsubl
  · rw [getTopPlayersCore]
    calc (List.take limit _).length ≤ limit := by
          rw [List.length_take]; exact min_le_left _ _

/-- Witness for C2 at the specification's example: 2024 = `[X (id 1, 10)]`,
2023 = `[X (no id, 5), Y (id 2, 7)]`.  X's aggregate is the canonical one —
total 15, 2 appearances, seasons `[2024, 2023]` and id 1 retained from 2024
despite 2023 lacking one — and the ranked output obeys the limit. -/
theorem topPlayers_spec_witness :
    ((⟨"X", some 1, 15, 2, [2024, 2023]⟩ : Player)
      ∈ mergePlayers [(2024, [⟨"X", some 1, 10⟩]),
                      (2023, [⟨"X", none, 5⟩, ⟨"Y", some 2, 7⟩])]) ∧
    (⟨"X", some 1, 15, 2, [2024, 2023]⟩ : Player)
      = aggOf "X" (flatRecords [(2024, [⟨"X", some 1, 10⟩]),
                                (2023, [⟨"X", none, 5⟩, ⟨"Y", some 2, 7⟩])]) ∧
    (getTopPlayersCore [(2024, [⟨"X", some 1, 10⟩]),
                        (2023, [⟨"X", none, 5⟩, ⟨"Y", some 2, 7⟩])] 20).length
      ≤ 20 := by
  have h := topPlayers_spec [(2024, [⟨"X", some 1, 10⟩]),
    (2023, [⟨"X", none, 5⟩, ⟨"Y", some 2, 7⟩])] 20
  have hmp : mergePlayers [(2024, [⟨"X", some 1, 10⟩]),
      (2023, [⟨"X", none, 5⟩, ⟨"Y", some 2, 7⟩])]
      = [⟨"X", some 1, 15, 2, [2024, 2023]⟩, ⟨"Y", some 2, 7, 1, [2023]⟩] := by
    norm_num [mergePlayers, mergeLeader, jsOr, truthyId]
    decide
  have hm : (⟨"X", some 1, 15, 2, [2024, 2023]⟩ : Player)
      ∈ mergePlayers [(2024, [⟨"X", some 1, 10⟩]),
                      (2023, [⟨"X", none, 5⟩, ⟨"Y", some 2, 7⟩])] := by
    rw [hmp]; simp
  exact ⟨hm, (h.1 _ hm).2, h.2.2.2.2.2.2⟩

end HRHub
